import Mathlib

/-!
Shallow embedding of the glix settlement engine (src/services/payment.ts)
and the store operations it consumes (Payload CRUD semantics restricted to
what the engine uses: findByID, find-with-equality-filter, update-by-id).
Balances are modelled as `Int` (the `balance` field is a signed number in
the Accounts collection); relationship fields are a tagged variant of a
bare identifier or a populated record, mirroring variable population depth.
-/

namespace Glix

/-- Transaction status enumeration from the Transactions collection config. -/
inductive Status where
  | requested
  | pending
  | rejected
  | accepted
deriving Repr, DecidableEq

/-- A relationship field value: either a bare id or a populated record. -/
inductive Ref (α : Type) where
  | byId (id : String)
  | record (a : α)
deriving Repr, DecidableEq

/-- An account record (Accounts collection): balance-bearing, owned by one user. -/
structure Account where
  id : String
  owner : String
  balance : Int
deriving Repr, DecidableEq

/-- A user record, restricted to the fields the settlement engine reads. -/
structure User where
  id : String
  email : String
  preferredAccount : Option (Ref Account)
deriving Repr, DecidableEq

/-- A transaction record (Transactions collection), engine-relevant fields. -/
structure Txn where
  id : String
  sender : Ref User
  «from» : Ref Account
  receiver : Ref User
  «to» : Option (Ref Account)
  amount : Int
  status : Status
deriving Repr, DecidableEq

/-- The persistent store: the three collections the engine touches. -/
structure Store where
  users : List User
  accounts : List Account
  transactions : List Txn
deriving Repr, DecidableEq

/-- A balance or status write performed against the store, in order. -/
inductive Write where
  | balance (accountId : String) (newBalance : Int)
  | status (txnId : String) (newStatus : Status)
deriving Repr, DecidableEq

/-- Outcome of an engine call: a thrown error, an HTTP-400 rejection, or an
HTTP-200 success carrying the caller-visible (in-memory) transaction object. -/
inductive TxResult where
  | fatal (msg : String)
  | rejected
  | ok (tx : Txn)
deriving Repr, DecidableEq

def isOk : TxResult → Bool
  | TxResult.ok _ => true
  | _ => false

def isRejected : TxResult → Bool
  | TxResult.rejected => true
  | _ => false

def isFatal : TxResult → Bool
  | TxResult.fatal _ => true
  | _ => false

/-- Source `getInstance`: resolve a reference, looking up by id when needed. -/
def getInstance {α : Type} (lookup : String → Option α) : Ref α → Option α
  | Ref.byId i => lookup i
  | Ref.record a => some a

/-- Resolve an account reference against the store (findByID on accounts). -/
def resolveAccount (s : Store) (r : Ref Account) : Option Account :=
  getInstance (fun i => s.accounts.find? (fun a => a.id == i)) r

/-- Resolve a user reference against the store (findByID on users). -/
def resolveUser (s : Store) (r : Ref User) : Option User :=
  getInstance (fun i => s.users.find? (fun u => u.id == i)) r

/-- Accounts owned by a user, in store order (find with owner-equals filter). -/
def receiverAccounts (s : Store) (rc : User) : List Account :=
  s.accounts.filter (fun a => a.owner == rc.id)

/-- The well-known clearing identity. -/
def adminEmail : String := "admin@glix.com"

/-- First user whose email is the clearing identity (find docs[0]). -/
def adminUser (s : Store) : Option User :=
  s.users.find? (fun u => u.email == adminEmail)

/-- The clearing account: first account owned by the clearing user. -/
def adminAccount (s : Store) : Option Account :=
  match adminUser s with
  | none => none
  | some au => s.accounts.find? (fun a => a.owner == au.id)

/-- Set the balance of every account whose id matches, leaving the rest alone. -/
def updAccounts (aid : String) (v : Int) (l : List Account) : List Account :=
  l.map (fun a => if a.id == aid then { a with balance := v } else a)

/-- Set the status of every transaction whose id matches. -/
def updStatus (tid : String) (st : Status) (l : List Txn) : List Txn :=
  l.map (fun t => if t.id == tid then { t with status := st } else t)

/-- payload.update on accounts: fails (throws) when the id is absent. -/
def storeUpdateBalance (s : Store) (aid : String) (v : Int) : Option Store :=
  match s.accounts.find? (fun a => a.id == aid) with
  | none => none
  | some _ => some { s with accounts := updAccounts aid v s.accounts }

/-- payload.update on transactions: fails (throws) when the id is absent. -/
def storeUpdateStatus (s : Store) (tid : String) (st : Status) : Option Store :=
  match s.transactions.find? (fun t => t.id == tid) with
  | none => none
  | some _ => some { s with transactions := updStatus tid st s.transactions }

/-- The destination chosen by Initiation: the receiver's preferred account
reference when set, otherwise the first account of the owner-filtered list
(populated record form), mirroring lines 47-51 of payment.ts. -/
def chosenDest (rc : User) (raccts : List Account) : Option (Ref Account) :=
  match rc.preferredAccount with
  | some p => some p
  | none =>
    match raccts with
    | a :: _ => some (Ref.record a)
    | [] => none

/-- The in-memory mutation `transaction.to = ...` of the initiation path. -/
def setTo (tx : Txn) (rc : User) (raccts : List Account) : Txn :=
  { tx with «to» := chosenDest rc raccts }

/-- Shallow embedding of `initiateTransaction` (payment.ts lines 16-85).
Returns the outcome, the post-call store, and the ordered list of writes. -/
def initiateTransaction (tx : Txn) (s : Store) : TxResult × Store × List Write :=
  match resolveAccount s tx.«from» with
  | none => (TxResult.fatal "from account not found", s, [])
  | some f =>
    match resolveUser s tx.receiver with
    | none => (TxResult.fatal "receiver not found", s, [])
    | some rc =>
      if f.balance < tx.amount ∨ receiverAccounts s rc = [] then
        match storeUpdateStatus s tx.id Status.rejected with
        | none => (TxResult.fatal "transaction not found", s, [])
        | some s1 => (TxResult.rejected, s1, [Write.status tx.id Status.rejected])
      else
        let tx1 := setTo tx rc (receiverAccounts s rc)
        match adminUser s with
        | none => (TxResult.fatal "admin user not found", s, [])
        | some au =>
          match s.accounts.find? (fun a => a.owner == au.id) with
          | none => (TxResult.fatal "admin account not found", s, [])
          | some ad =>
            match storeUpdateBalance s ad.id (ad.balance + tx.amount) with
            | none => (TxResult.fatal "account not found on update", s, [])
            | some s1 =>
              match storeUpdateBalance s1 f.id (f.balance - tx.amount) with
              | none => (TxResult.fatal "account not found on update", s1,
                  [Write.balance ad.id (ad.balance + tx.amount)])
              | some s2 => (TxResult.ok tx1, s2,
                  [Write.balance ad.id (ad.balance + tx.amount),
                   Write.balance f.id (f.balance - tx.amount)])

/-- Shallow embedding of `completeTransaction` (payment.ts lines 87-139). -/
def completeTransaction (tx : Txn) (s : Store) : TxResult × Store × List Write :=
  match tx.«to» with
  | none => (TxResult.fatal "Target account not found", s, [])
  | some r =>
    match resolveAccount s r with
    | none => (TxResult.fatal "Target account not found", s, [])
    | some t =>
      match adminUser s with
      | none => (TxResult.fatal "Admin user not found", s, [])
      | some au =>
        match s.accounts.find? (fun a => a.owner == au.id) with
        | none => (TxResult.fatal "Admin account not found", s, [])
        | some ad =>
          match storeUpdateBalance s ad.id (ad.balance - tx.amount) with
          | none => (TxResult.fatal "account not found on update", s, [])
          | some s1 =>
            match storeUpdateBalance s1 t.id (t.balance + tx.amount) with
            | none => (TxResult.fatal "account not found on update", s1,
                [Write.balance ad.id (ad.balance - tx.amount)])
            | some s2 => (TxResult.ok tx, s2,
                [Write.balance ad.id (ad.balance - tx.amount),
                 Write.balance t.id (t.balance + tx.amount)])

/-- The stored balance at an account id (first record with that id). -/
def balanceOf (s : Store) (aid : String) : Option Int :=
  (s.accounts.find? (fun a => a.id == aid)).map (fun a => a.balance)

/-- The in-memory transaction visible to the caller after a successful call. -/
def okTxn (r : TxResult) (d : Txn) : Txn :=
  match r with
  | TxResult.ok t => t
  | _ => d

end Glix

namespace Glix

/-- find? commutes with mapping a function that preserves the predicate. -/
theorem find?_map_pres {α : Type} (g : α → α) (p : α → Bool) (h : ∀ a, p (g a) = p a) :
    ∀ l : List α, (l.map g).find? p = (l.find? p).map g := by
  intro l
  induction l with
  | nil => rfl
  | cons a t ih =>
    cases hp : p a with
    | false =>
      have hpg : ¬ p (g a) = true := by simp [h a, hp]
      rw [List.map_cons, List.find?_cons_of_neg _ hpg,
        List.find?_cons_of_neg _ (by simp [hp])]
      exact ih
    | true =>
      have hpg : p (g a) = true := by rw [h a]; exact hp
      rw [List.map_cons, List.find?_cons_of_pos _ hpg, List.find?_cons_of_pos _ hp,
        Option.map_some']

/-- filter commutes with mapping a function that preserves the predicate. -/
theorem filter_map_pres {α : Type} (g : α → α) (p : α → Bool) (h : ∀ a, p (g a) = p a) :
    ∀ l : List α, (l.map g).filter p = (l.filter p).map g := by
  intro l
  induction l with
  | nil => rfl
  | cons a t ih =>
    simp only [List.map_cons, List.filter_cons, h a]
    cases hp : p a <;> simp [ih]

/-- A balance rewrite keeps the id field. -/
theorem updf_pres_id (aid : String) (v : Int) (a : Account) :
    ((if a.id == aid then { a with balance := v } else a) : Account).id = a.id := by
  split <;> rfl

/-- A balance rewrite keeps the owner field. -/
theorem updf_pres_owner (aid : String) (v : Int) (a : Account) :
    ((if a.id == aid then { a with balance := v } else a) : Account).owner = a.owner := by
  split <;> rfl

theorem find?_id_updAccounts (aid b : String) (v : Int) (l : List Account) :
    (updAccounts aid v l).find? (fun a => a.id == b)
      = (l.find? (fun a => a.id == b)).map
          (fun a => if a.id == aid then { a with balance := v } else a) :=
  find?_map_pres _ _ (fun a => by rw [updf_pres_id]) l

theorem find?_owner_updAccounts (aid o : String) (v : Int) (l : List Account) :
    (updAccounts aid v l).find? (fun a => a.owner == o)
      = (l.find? (fun a => a.owner == o)).map
          (fun a => if a.id == aid then { a with balance := v } else a) :=
  find?_map_pres _ _ (fun a => by rw [updf_pres_owner]) l

theorem filter_owner_updAccounts (aid o : String) (v : Int) (l : List Account) :
    (updAccounts aid v l).filter (fun a => a.owner == o)
      = (l.filter (fun a => a.owner == o)).map
          (fun a => if a.id == aid then { a with balance := v } else a) :=
  filter_map_pres _ _ (fun a => by rw [updf_pres_owner]) l

/-- Updating a different id leaves a lookup by id unchanged. -/
theorem find?_id_updAccounts_ne {b aid : String} (v : Int) (l : List Account)
    (hne : b ≠ aid) :
    (updAccounts aid v l).find? (fun a => a.id == b) = l.find? (fun a => a.id == b) := by
  rw [find?_id_updAccounts]
  cases hfind : l.find? (fun a => a.id == b) with
  | none => rfl
  | some e =>
    have he : e.id = b := by simpa using List.find?_some hfind
    rw [Option.map_some']
    rw [if_neg]
    simp [he, hne]

/-- Updating an id rewrites the balance seen by a lookup at that id. -/
theorem find?_id_updAccounts_self (aid : String) (v : Int) (l : List Account) :
    (updAccounts aid v l).find? (fun a => a.id == aid)
      = (l.find? (fun a => a.id == aid)).map (fun a => { a with balance := v }) := by
  rw [find?_id_updAccounts]
  cases hfind : l.find? (fun a => a.id == aid) with
  | none => rfl
  | some e =>
    have he : e.id = aid := by simpa using List.find?_some hfind
    simp [he]

theorem find?_id_updAccounts_isSome (aid b : String) (v : Int) (l : List Account) :
    ((updAccounts aid v l).find? (fun a => a.id == b)).isSome
      = (l.find? (fun a => a.id == b)).isSome := by
  rw [find?_id_updAccounts]
  cases l.find? (fun a => a.id == b) <;> rfl

/-- An account in the list makes a lookup at its id succeed. -/
theorem find?_id_isSome_of_mem {ad : Account} {l : List Account} (h : ad ∈ l) :
    (l.find? (fun a => a.id == ad.id)).isSome := by
  rw [List.find?_isSome]
  exact ⟨ad, h, by simp⟩

theorem storeUpdateBalance_some {s : Store} {aid : String} (v : Int)
    (h : (s.accounts.find? (fun a => a.id == aid)).isSome) :
    storeUpdateBalance s aid v
      = some { s with accounts := updAccounts aid v s.accounts } := by
  unfold storeUpdateBalance
  cases hf : s.accounts.find? (fun a => a.id == aid) with
  | none => rw [hf] at h; simp at h
  | some e => rfl

theorem storeUpdateStatus_some {s : Store} {tid : String} (st : Status)
    (h : (s.transactions.find? (fun t => t.id == tid)).isSome) :
    storeUpdateStatus s tid st
      = some { s with transactions := updStatus tid st s.transactions } := by
  unfold storeUpdateStatus
  cases hf : s.transactions.find? (fun t => t.id == tid) with
  | none => rw [hf] at h; simp at h
  | some e => rfl

/-- Characterization of the initiation success path: with all lookups
succeeding and the rejection test failing, the call returns 200 with the
in-memory destination assignment, and performs the clearing credit followed
by the source debit. -/
theorem initiate_ok_eq {tx : Txn} {s : Store} {f : Account} {rc : User}
    {au : User} {ad : Account}
    (hf : resolveAccount s tx.«from» = some f)
    (hrc : resolveUser s tx.receiver = some rc)
    (hbal : ¬ f.balance < tx.amount)
    (hacc : receiverAccounts s rc ≠ [])
    (hau : adminUser s = some au)
    (had : s.accounts.find? (fun a => a.owner == au.id) = some ad)
    (hfs : (s.accounts.find? (fun a => a.id == f.id)).isSome) :
    initiateTransaction tx s =
      (TxResult.ok (setTo tx rc (receiverAccounts s rc)),
       { s with accounts := updAccounts f.id (f.balance - tx.amount)
                              (updAccounts ad.id (ad.balance + tx.amount) s.accounts) },
       [Write.balance ad.id (ad.balance + tx.amount),
        Write.balance f.id (f.balance - tx.amount)]) := by
  have hcond : ¬ (f.balance < tx.amount ∨ receiverAccounts s rc = []) := by
    rw [not_or]; exact ⟨hbal, hacc⟩
  have hads : (s.accounts.find? (fun a => a.id == ad.id)).isSome :=
    find?_id_isSome_of_mem (List.mem_of_find?_eq_some had)
  have h1 := storeUpdateBalance_some (s := s) (ad.balance + tx.amount) hads
  have hfs1 : (((updAccounts ad.id (ad.balance + tx.amount) s.accounts).find?
      (fun a => a.id == f.id))).isSome := by
    rw [find?_id_updAccounts_isSome]; exact hfs
  have h2 := storeUpdateBalance_some
    (s := { s with accounts := updAccounts ad.id (ad.balance + tx.amount) s.accounts })
    (f.balance - tx.amount) hfs1
  simp only [initiateTransaction, hf, hrc, if_neg hcond, hau, had, h1, h2]

/-- Characterization of the initiation rejection path. -/
theorem initiate_reject_eq {tx : Txn} {s : Store} {f : Account} {rc : User}
    (hf : resolveAccount s tx.«from» = some f)
    (hrc : resolveUser s tx.receiver = some rc)
    (hcond : f.balance < tx.amount ∨ receiverAccounts s rc = [])
    (hT : (s.transactions.find? (fun t => t.id == tx.id)).isSome) :
    initiateTransaction tx s =
      (TxResult.rejected,
       { s with transactions := updStatus tx.id Status.rejected s.transactions },
       [Write.status tx.id Status.rejected]) := by
  have hs := storeUpdateStatus_some (s := s) Status.rejected hT
  simp only [initiateTransaction, hf, hrc, if_pos hcond, hs]

/-- Characterization of the completion success path. -/
theorem complete_ok_eq {tx : Txn} {s : Store} {r : Ref Account} {t : Account}
    {au : User} {ad : Account}
    (hto : tx.«to» = some r)
    (ht : resolveAccount s r = some t)
    (hau : adminUser s = some au)
    (had : s.accounts.find? (fun a => a.owner == au.id) = some ad)
    (hts : (s.accounts.find? (fun a => a.id == t.id)).isSome) :
    completeTransaction tx s =
      (TxResult.ok tx,
       { s with accounts := updAccounts t.id (t.balance + tx.amount)
                              (updAccounts ad.id (ad.balance - tx.amount) s.accounts) },
       [Write.balance ad.id (ad.balance - tx.amount),
        Write.balance t.id (t.balance + tx.amount)]) := by
  have hads : (s.accounts.find? (fun a => a.id == ad.id)).isSome :=
    find?_id_isSome_of_mem (List.mem_of_find?_eq_some had)
  have h1 := storeUpdateBalance_some (s := s) (ad.balance - tx.amount) hads
  have hts1 : (((updAccounts ad.id (ad.balance - tx.amount) s.accounts).find?
      (fun a => a.id == t.id))).isSome := by
    rw [find?_id_updAccounts_isSome]; exact hts
  have h2 := storeUpdateBalance_some
    (s := { s with accounts := updAccounts ad.id (ad.balance - tx.amount) s.accounts })
    (t.balance + tx.amount) hts1
  simp only [completeTransaction, hto, ht, hau, had, h1, h2]

/-- A status rewrite keeps the transaction id. -/
theorem updStatusf_pres_id (tid : String) (st : Status) (t : Txn) :
    ((if t.id == tid then { t with status := st } else t) : Txn).id = t.id := by
  split <;> rfl

/-- A status update rewrites the status seen by a lookup at that id. -/
theorem find?_id_updStatus_self (tid : String) (st : Status) (l : List Txn) :
    (updStatus tid st l).find? (fun t => t.id == tid)
      = (l.find? (fun t => t.id == tid)).map (fun t => { t with status := st }) := by
  have h := find?_map_pres (fun t => if t.id == tid then { t with status := st } else t)
    (fun t => t.id == tid)
    (fun t => by by_cases hc : (t.id == tid) = true <;> simp [hc]) l
  unfold updStatus
  rw [h]
  cases hfind : l.find? (fun t => t.id == tid) with
  | none => rfl
  | some e =>
    have he : e.id = tid := by simpa using List.find?_some hfind
    simp [he]

/-- Balance updates never touch the transactions collection. -/
theorem storeUpdateBalance_transactions {s s' : Store} {aid : String} {v : Int}
    (h : storeUpdateBalance s aid v = some s') : s'.transactions = s.transactions := by
  unfold storeUpdateBalance at h
  cases hf : s.accounts.find? (fun a => a.id == aid) with
  | none => rw [hf] at h; cases h
  | some e => rw [hf] at h; cases h; rfl

/-- When the rejection test fails, the outcome is never a rejection. -/
theorem initiate_not_rejected {tx : Txn} {s : Store} {f : Account} {rc : User}
    (hf : resolveAccount s tx.«from» = some f)
    (hrc : resolveUser s tx.receiver = some rc)
    (hcond : ¬ (f.balance < tx.amount ∨ receiverAccounts s rc = [])) :
    isRejected (initiateTransaction tx s).1 = false := by
  simp only [initiateTransaction, hf, hrc, if_neg hcond]
  repeat' split
  all_goals rfl

/-- Sample world used by concrete evaluations: three users, three accounts. -/
def adminU : User := { id := "u-admin", email := "admin@glix.com", preferredAccount := none }

def aliceU : User := { id := "u-alice", email := "alice@email.com", preferredAccount := none }

def bobU : User := { id := "u-bob", email := "bob@email.com", preferredAccount := some (Ref.byId "acct-b") }

def adminAcct : Account := { id := "acct-admin", owner := "u-admin", balance := 1000 }

def aliceAcct : Account := { id := "acct-a", owner := "u-alice", balance := 500 }

def bobAcct : Account := { id := "acct-b", owner := "u-bob", balance := 200 }

def tx0 : Txn :=
  { id := "t1", sender := Ref.byId "u-alice", «from» := Ref.byId "acct-a",
    receiver := Ref.byId "u-bob", «to» := none, amount := 100, status := Status.requested }

def s0 : Store :=
  { users := [adminU, aliceU, bobU],
    accounts := [adminAcct, aliceAcct, bobAcct],
    transactions := [tx0] }

example : isOk (initiateTransaction tx0 s0).1 = true := by decide

example : balanceOf (initiateTransaction tx0 s0).2.1 "acct-admin" = some 1100 := by decide

example : balanceOf (initiateTransaction tx0 s0).2.1 "acct-a" = some 400 := by decide

/-- A transaction whose source account is the clearing account itself. -/
def txAdminSrc : Txn :=
  { tx0 with sender := Ref.byId "u-admin", «from» := Ref.byId "acct-admin" }

/-- C1 (amended): for every initiateTransaction call that succeeds, provided
the source account is a record consistent with the store and distinct from
the clearing account, exactly two balance writes occur, first crediting the
clearing account by the amount, then debiting the source by the amount, and
no other account's balance changes. -/
theorem C1_success_two_writes (tx : Txn) (s : Store) (f : Account) (rc au : User)
    (ad : Account)
    (hf : resolveAccount s tx.«from» = some f)
    (hrc : resolveUser s tx.receiver = some rc)
    (hbal : ¬ f.balance < tx.amount)
    (hacc : receiverAccounts s rc ≠ [])
    (hau : adminUser s = some au)
    (had : s.accounts.find? (fun a => a.owner == au.id) = some ad)
    (hfs : (s.accounts.find? (fun a => a.id == f.id)).isSome)
    (hne : f.id ≠ ad.id) :
    isOk (initiateTransaction tx s).1 = true ∧
    (initiateTransaction tx s).2.2 =
      [Write.balance ad.id (ad.balance + tx.amount),
       Write.balance f.id (f.balance - tx.amount)] ∧
    balanceOf (initiateTransaction tx s).2.1 ad.id = some (ad.balance + tx.amount) ∧
    balanceOf (initiateTransaction tx s).2.1 f.id = some (f.balance - tx.amount) ∧
    (∀ b : String, b ≠ f.id → b ≠ ad.id →
      balanceOf (initiateTransaction tx s).2.1 b = balanceOf s b) := by
  rw [initiate_ok_eq hf hrc hbal hacc hau had hfs]
  refine ⟨rfl, rfl, ?_, ?_, ?_⟩
  · simp only [balanceOf]
    rw [find?_id_updAccounts_ne _ _ (Ne.symm hne), find?_id_updAccounts_self]
    cases hq : s.accounts.find? (fun a => a.id == ad.id) with
    | none =>
      exfalso
      have hm := find?_id_isSome_of_mem (List.mem_of_find?_eq_some had)
      rw [hq] at hm; simp at hm
    | some e => simp
  · simp only [balanceOf]
    rw [find?_id_updAccounts_self]
    cases hq : (updAccounts ad.id (ad.balance + tx.amount) s.accounts).find?
        (fun a => a.id == f.id) with
    | none =>
      exfalso
      have hm : ((updAccounts ad.id (ad.balance + tx.amount) s.accounts).find?
          (fun a => a.id == f.id)).isSome := by
        rw [find?_id_updAccounts_isSome]; exact hfs
      rw [hq] at hm; simp at hm
    | some e => simp
  · intro b hbf hba
    simp only [balanceOf]
    rw [find?_id_updAccounts_ne _ _ hbf, find?_id_updAccounts_ne _ _ hba]

/-- Witness for C1 on the sample world: clearing 1000 to 1100, source 500 to
400, the untouched account keeps its balance. -/
theorem C1_success_two_writes_witness :
    isOk (initiateTransaction tx0 s0).1 = true ∧
    (initiateTransaction tx0 s0).2.2 =
      [Write.balance "acct-admin" 1100, Write.balance "acct-a" 400] ∧
    balanceOf (initiateTransaction tx0 s0).2.1 "acct-admin" = some 1100 ∧
    balanceOf (initiateTransaction tx0 s0).2.1 "acct-a" = some 400 ∧
    balanceOf (initiateTransaction tx0 s0).2.1 "acct-b" = balanceOf s0 "acct-b" := by
  have h := C1_success_two_writes tx0 s0 aliceAcct bobU adminU adminAcct
    (by decide) (by decide) (by decide) (by decide) (by decide) (by decide)
    (by decide) (by decide)
  exact ⟨h.1, h.2.1, h.2.2.1, h.2.2.2.1, h.2.2.2.2 "acct-b" (by decide) (by decide)⟩

/-- C1 counterexample: when the transaction's source account is the clearing
account itself, the call succeeds, but the clearing account ends at
balance_before - amount (the later source debit overwrites the credit), not
balance_before + amount as the claim states for every successful call. -/
theorem C1_claim_counterexample :
    isOk (initiateTransaction txAdminSrc s0).1 = true ∧
    txAdminSrc.amount = 100 ∧
    balanceOf s0 "acct-admin" = some 1000 ∧
    balanceOf (initiateTransaction txAdminSrc s0).2.1 "acct-admin" = some 900 ∧
    ¬ (900 : Int) = 1000 + 100 := by decide

/-- After the rejection write, the stored transaction's status reads rejected. -/
theorem status_after_updStatus {l : List Txn} {tid : String} (st : Status)
    (hT : (l.find? (fun t => t.id == tid)).isSome) :
    ((updStatus tid st l).find? (fun t => t.id == tid)).map (fun t => t.status)
      = some st := by
  rw [find?_id_updStatus_self]
  cases hq : l.find? (fun t => t.id == tid) with
  | none => rw [hq] at hT; simp at hT
  | some e => simp

/-- A transfer attempt of more than the source holds. -/
def txBig : Txn := { tx0 with amount := 9999 }

/-- A transfer attempt of exactly the source balance (boundary case). -/
def tx500 : Txn := { tx0 with amount := 500 }

/-- C2: initiateTransaction rejects iff the resolved source balance is
strictly below the amount or the receiver owns zero accounts; on rejection
the stored status becomes rejected and no account balance changes; at the
exact-balance boundary the call succeeds. -/
theorem C2_rejection_rule (tx : Txn) (s : Store) (f : Account) (rc : User)
    (hf : resolveAccount s tx.«from» = some f)
    (hrc : resolveUser s tx.receiver = some rc)
    (hT : (s.transactions.find? (fun t => t.id == tx.id)).isSome) :
    (isRejected (initiateTransaction tx s).1 = true ↔
      (f.balance < tx.amount ∨ receiverAccounts s rc = [])) ∧
    ((f.balance < tx.amount ∨ receiverAccounts s rc = []) →
      (initiateTransaction tx s).2.1.accounts = s.accounts ∧
      (((initiateTransaction tx s).2.1.transactions.find? (fun t => t.id == tx.id)).map
        (fun t => t.status)) = some Status.rejected) ∧
    (f.balance = tx.amount → receiverAccounts s rc ≠ [] →
      ∀ au ad, adminUser s = some au →
        s.accounts.find? (fun a => a.owner == au.id) = some ad →
        (s.accounts.find? (fun a => a.id == f.id)).isSome →
        isOk (initiateTransaction tx s).1 = true) := by
  refine ⟨⟨?_, ?_⟩, ?_, ?_⟩
  · intro hrej
    by_contra hc
    rw [initiate_not_rejected hf hrc hc] at hrej
    cases hrej
  · intro hcond
    rw [initiate_reject_eq hf hrc hcond hT]
    rfl
  · intro hcond
    rw [initiate_reject_eq hf hrc hcond hT]
    exact ⟨rfl, status_after_updStatus Status.rejected hT⟩
  · intro h1 h2 au ad hau had hfs
    have hbal : ¬ f.balance < tx.amount := by rw [h1]; exact lt_irrefl _
    rw [initiate_ok_eq hf hrc hbal h2 hau had hfs]
    rfl

/-- Witness for C2: amount 9999 against balance 500 rejects with balances
untouched; amount 500 against balance 500 succeeds. -/
theorem C2_rejection_rule_witness :
    isRejected (initiateTransaction txBig s0).1 = true ∧
    (initiateTransaction txBig s0).2.1.accounts = s0.accounts ∧
    isOk (initiateTransaction tx500 s0).1 = true := by
  have hb := C2_rejection_rule txBig s0 aliceAcct bobU (by decide) (by decide) (by decide)
  have h5 := C2_rejection_rule tx500 s0 aliceAcct bobU (by decide) (by decide) (by decide)
  refine ⟨hb.1.mpr (by decide), (hb.2.1 (by decide)).1, ?_⟩
  exact h5.2.2 (by decide) (by decide) adminU adminAcct (by decide) (by decide) (by decide)

/-- C3 (amended): on every successful initiation the chosen destination is
recorded only on the in-memory transaction object: its to field equals the
receiver's preferredAccount reference when set and otherwise the first
store-listed account owned by the receiver; the persisted transactions
collection is left unchanged, so the choice is not durably recorded. -/
theorem C3_destination_choice_in_memory (tx : Txn) (s : Store) (f : Account)
    (rc au : User) (ad : Account)
    (hf : resolveAccount s tx.«from» = some f)
    (hrc : resolveUser s tx.receiver = some rc)
    (hbal : ¬ f.balance < tx.amount)
    (hacc : receiverAccounts s rc ≠ [])
    (hau : adminUser s = some au)
    (had : s.accounts.find? (fun a => a.owner == au.id) = some ad)
    (hfs : (s.accounts.find? (fun a => a.id == f.id)).isSome) :
    isOk (initiateTransaction tx s).1 = true ∧
    (okTxn (initiateTransaction tx s).1 tx).«to» = chosenDest rc (receiverAccounts s rc) ∧
    (∀ p, rc.preferredAccount = some p →
      (okTxn (initiateTransaction tx s).1 tx).«to» = some p) ∧
    (rc.preferredAccount = none →
      (okTxn (initiateTransaction tx s).1 tx).«to»
        = (receiverAccounts s rc).head?.map Ref.record) ∧
    (initiateTransaction tx s).2.1.transactions = s.transactions := by
  rw [initiate_ok_eq hf hrc hbal hacc hau had hfs]
  refine ⟨rfl, rfl, ?_, ?_, rfl⟩
  · intro p hp
    simp [okTxn, setTo, chosenDest, hp]
  · intro hp
    simp only [okTxn, setTo, chosenDest, hp]
    cases receiverAccounts s rc <;> rfl

/-- Witness for C3 (amended) on the sample world: bob's preferred account is
chosen in memory and the stored transactions are unchanged. -/
theorem C3_destination_choice_in_memory_witness :
    isOk (initiateTransaction tx0 s0).1 = true ∧
    (okTxn (initiateTransaction tx0 s0).1 tx0).«to» = some (Ref.byId "acct-b") ∧
    (initiateTransaction tx0 s0).2.1.transactions = s0.transactions := by
  have h := C3_destination_choice_in_memory tx0 s0 aliceAcct bobU adminU adminAcct
    (by decide) (by decide) (by decide) (by decide) (by decide) (by decide) (by decide)
  exact ⟨h.1, h.2.2.1 (Ref.byId "acct-b") rfl, h.2.2.2.2⟩

/-- C3 counterexample: the initiation succeeds and chooses bob's preferred
account, yet the persisted transaction record still has no destination:
nothing was durably recorded on the stored to field. -/
theorem C3_claim_counterexample :
    isOk (initiateTransaction tx0 s0).1 = true ∧
    bobU.preferredAccount = some (Ref.byId "acct-b") ∧
    (((initiateTransaction tx0 s0).2.1.transactions.find? (fun t => t.id == "t1")).map
      (fun t => t.«to»)) = some none ∧
    ¬ (some (none : Option (Ref Account)) = some (some (Ref.byId "acct-b"))) := by
  decide

/-- A store with no clearing user at all. -/
def sNoClearing : Store :=
  { users := [aliceU, bobU], accounts := [aliceAcct, bobAcct], transactions := [txBig] }

/-- C9: when the rejection condition holds, the rejection outcome and the
status write are produced without resolving the clearing account, even if
the clearing user or clearing account is missing from the store. -/
theorem C9_rejection_without_clearing (tx : Txn) (s : Store) (f : Account) (rc : User)
    (hf : resolveAccount s tx.«from» = some f)
    (hrc : resolveUser s tx.receiver = some rc)
    (hT : (s.transactions.find? (fun t => t.id == tx.id)).isSome)
    (hcond : f.balance < tx.amount ∨ receiverAccounts s rc = [])
    (hmiss : adminUser s = none ∨ adminAccount s = none) :
    (initiateTransaction tx s).1 = TxResult.rejected ∧
    (initiateTransaction tx s).2.1.accounts = s.accounts ∧
    (((initiateTransaction tx s).2.1.transactions.find? (fun t => t.id == tx.id)).map
      (fun t => t.status)) = some Status.rejected := by
  rw [initiate_reject_eq hf hrc hcond hT]
  exact ⟨rfl, rfl, status_after_updStatus Status.rejected hT⟩

/-- Witness for C9: a store without the admin user still rejects an
insufficient-funds transfer and records the rejected status. -/
theorem C9_rejection_without_clearing_witness :
    (initiateTransaction txBig sNoClearing).1 = TxResult.rejected ∧
    (initiateTransaction txBig sNoClearing).2.1.accounts = sNoClearing.accounts ∧
    (((initiateTransaction txBig sNoClearing).2.1.transactions.find?
      (fun t => t.id == txBig.id)).map (fun t => t.status)) = some Status.rejected :=
  C9_rejection_without_clearing txBig sNoClearing aliceAcct bobU
    (by decide) (by decide) (by decide) (by decide) (Or.inl (by decide))

/-- After an update at an id, a lookup at that id reads the written value. -/
theorem balance_after_self_upd {l : List Account} {aid : String} (v : Int)
    (h : (l.find? (fun a => a.id == aid)).isSome) :
    ((updAccounts aid v l).find? (fun a => a.id == aid)).map (fun a => a.balance)
      = some v := by
  rw [find?_id_updAccounts_self]
  cases hq : l.find? (fun a => a.id == aid) with
  | none => rw [hq] at h; simp at h
  | some e => simp

/-- A resolution failure scenario during initiation, in execution order:
the source account unresolvable, or the receiver unresolvable, or, with the
rejection test passing so the clearing lookup is reached, the clearing user
or the clearing account missing. -/
def initLookupFailure (tx : Txn) (s : Store) : Prop :=
  resolveAccount s tx.«from» = none ∨
  (∃ f, resolveAccount s tx.«from» = some f ∧
    (resolveUser s tx.receiver = none ∨
      (∃ rc, resolveUser s tx.receiver = some rc ∧
        ¬ (f.balance < tx.amount ∨ receiverAccounts s rc = []) ∧
        (adminUser s = none ∨
          (∃ au, adminUser s = some au ∧
            s.accounts.find? (fun a => a.owner == au.id) = none)))))

/-- A resolution failure scenario during completion: no destination set, or
the destination unresolvable, or the clearing user or account missing. -/
def compLookupFailure (tx : Txn) (s : Store) : Prop :=
  tx.«to» = none ∨
  (∃ r, tx.«to» = some r ∧ resolveAccount s r = none) ∨
  adminUser s = none ∨
  (∃ au, adminUser s = some au ∧ s.accounts.find? (fun a => a.owner == au.id) = none)

/-- C6: in both initiation and completion, any account or user resolution
failure aborts with a fatal error, with the store unchanged and no writes
performed at the point of abort. -/
theorem C6_lookup_failure_aborts (txI : Txn) (sI : Store) (txC : Txn) (sC : Store)
    (hI : initLookupFailure txI sI) (hC : compLookupFailure txC sC) :
    (isFatal (initiateTransaction txI sI).1 = true ∧
     (initiateTransaction txI sI).2.1 = sI ∧
     (initiateTransaction txI sI).2.2 = []) ∧
    (isFatal (completeTransaction txC sC).1 = true ∧
     (completeTransaction txC sC).2.1 = sC ∧
     (completeTransaction txC sC).2.2 = []) := by
  constructor
  · rcases hI with h | ⟨f, hf, h⟩
    · simp only [initiateTransaction, h]
      simp [isFatal]
    · rcases h with h | ⟨rc, hrc, hcond, h⟩
      · simp only [initiateTransaction, hf, h]
        simp [isFatal]
      · rcases h with h | ⟨au, hau, h⟩
        · simp only [initiateTransaction, hf, hrc, if_neg hcond, h]
          simp [isFatal]
        · simp only [initiateTransaction, hf, hrc, if_neg hcond, hau, h]
          simp [isFatal]
  · rcases hC with h | ⟨r, hr, hres⟩ | h | ⟨au, hau, h⟩
    · simp only [completeTransaction, h]
      simp [isFatal]
    · simp only [completeTransaction, hr, hres]
      simp [isFatal]
    · cases hto : txC.«to» with
      | none =>
        simp only [completeTransaction, hto]
        simp [isFatal]
      | some r =>
        cases hres : resolveAccount sC r with
        | none =>
          simp only [completeTransaction, hto, hres]
          simp [isFatal]
        | some t =>
          simp only [completeTransaction, hto, hres, h]
          simp [isFatal]
    · cases hto : txC.«to» with
      | none =>
        simp only [completeTransaction, hto]
        simp [isFatal]
      | some r =>
        cases hres : resolveAccount sC r with
        | none =>
          simp only [completeTransaction, hto, hres]
          simp [isFatal]
        | some t =>
          simp only [completeTransaction, hto, hres, hau, h]
          simp [isFatal]

/-- A transaction naming a source account id that is not in the store. -/
def txBadFrom : Txn := { tx0 with «from» := Ref.byId "acct-missing" }

/-- Witness for C6: a missing source account makes initiation abort fatally
with no mutation; a transaction with no destination set makes completion
abort fatally with no mutation. -/
theorem C6_lookup_failure_aborts_witness :
    (isFatal (initiateTransaction txBadFrom s0).1 = true ∧
     (initiateTransaction txBadFrom s0).2.1 = s0 ∧
     (initiateTransaction txBadFrom s0).2.2 = []) ∧
    (isFatal (completeTransaction tx0 s0).1 = true ∧
     (completeTransaction tx0 s0).2.1 = s0 ∧
     (completeTransaction tx0 s0).2.2 = []) :=
  C6_lookup_failure_aborts txBadFrom s0 tx0 s0 (Or.inl (by decide)) (Or.inl (by decide))

def xU : User := { id := "u-x", email := "x@email.com", preferredAccount := none }

def xAcct : Account := { id := "acct-x", owner := "u-x", balance := 50 }

/-- A clearing account holding nothing. -/
def adminAcctZero : Account := { id := "acct-admin", owner := "u-admin", balance := 0 }

/-- A store whose clearing account holds zero balance. -/
def sUnderfunded : Store :=
  { users := [adminU, xU], accounts := [adminAcctZero, xAcct], transactions := [] }

/-- A transaction completing against the underfunded clearing account. -/
def txDrain : Txn :=
  { id := "t9", sender := Ref.byId "u-x", «from» := Ref.byId "acct-x",
    receiver := Ref.byId "u-x", «to» := some (Ref.byId "acct-x"), amount := 100,
    status := Status.pending }

/-- C7: a successful initiation from a non-negative source balance leaves the
source non-negative (the rejection test guards the debit), while completion
performs the clearing debit with no sufficiency check and can drive the
clearing balance below zero, as witnessed on a zero-balance clearing account. -/
theorem C7_initiation_guards_completion_does_not (tx : Txn) (s : Store) (f : Account)
    (rc au : User) (ad : Account)
    (hf : resolveAccount s tx.«from» = some f)
    (hrc : resolveUser s tx.receiver = some rc)
    (hbal : ¬ f.balance < tx.amount)
    (hacc : receiverAccounts s rc ≠ [])
    (hau : adminUser s = some au)
    (had : s.accounts.find? (fun a => a.owner == au.id) = some ad)
    (hfs : (s.accounts.find? (fun a => a.id == f.id)).isSome)
    (hnn : 0 ≤ f.balance) :
    (isOk (initiateTransaction tx s).1 = true ∧
     balanceOf (initiateTransaction tx s).2.1 f.id = some (f.balance - tx.amount) ∧
     0 ≤ f.balance - tx.amount) ∧
    (isOk (completeTransaction txDrain sUnderfunded).1 = true ∧
     balanceOf (completeTransaction txDrain sUnderfunded).2.1 "acct-admin" = some (-100) ∧
     (-100 : Int) < 0) := by
  constructor
  · rw [initiate_ok_eq hf hrc hbal hacc hau had hfs]
    refine ⟨rfl, ?_, by omega⟩
    simp only [balanceOf]
    exact balance_after_self_upd (f.balance - tx.amount)
      (by rw [find?_id_updAccounts_isSome]; exact hfs)
  · exact ⟨by decide, by decide, by decide⟩

/-- Witness for C7 on the sample world: source 500 debited by 100 stays at
400, non-negative. -/
theorem C7_initiation_guards_completion_does_not_witness :
    isOk (initiateTransaction tx0 s0).1 = true ∧
    balanceOf (initiateTransaction tx0 s0).2.1 "acct-a" = some 400 ∧
    (0 : Int) ≤ 400 := by
  have h := C7_initiation_guards_completion_does_not tx0 s0 aliceAcct bobU adminU
    adminAcct (by decide) (by decide) (by decide) (by decide) (by decide) (by decide)
    (by decide) (by decide)
  exact ⟨h.1.1, h.1.2.1, by norm_num⟩

/-- C10: completeTransaction never writes the transactions collection: the
stored transactions are identical after every call, and every write it
performs is a balance write on the accounts collection. -/
theorem C10_completion_never_writes_transactions (tx : Txn) (s : Store) :
    (completeTransaction tx s).2.1.transactions = s.transactions ∧
    ∀ w ∈ (completeTransaction tx s).2.2, ∃ i b, w = Write.balance i b := by
  unfold completeTransaction
  cases hto : tx.«to» with
  | none => exact ⟨rfl, by intro w hw; cases hw⟩
  | some r =>
    dsimp only
    cases hres : resolveAccount s r with
    | none => exact ⟨rfl, by intro w hw; cases hw⟩
    | some t =>
      dsimp only
      cases hau : adminUser s with
      | none => exact ⟨rfl, by intro w hw; cases hw⟩
      | some au =>
        dsimp only
        cases had : s.accounts.find? (fun a => a.owner == au.id) with
        | none => exact ⟨rfl, by intro w hw; cases hw⟩
        | some ad =>
          dsimp only
          cases h1 : storeUpdateBalance s ad.id (ad.balance - tx.amount) with
          | none => exact ⟨rfl, by intro w hw; cases hw⟩
          | some s1 =>
            dsimp only
            cases h2 : storeUpdateBalance s1 t.id (t.balance + tx.amount) with
            | none =>
              refine ⟨storeUpdateBalance_transactions h1, ?_⟩
              intro w hw
              simp only [List.mem_singleton] at hw
              exact ⟨_, _, hw⟩
            | some s2 =>
              refine ⟨?_, ?_⟩
              · rw [storeUpdateBalance_transactions h2, storeUpdateBalance_transactions h1]
              · intro w hw
                simp only [List.mem_cons, List.mem_singleton, List.not_mem_nil,
                  or_false] at hw
                rcases hw with rfl | rfl
                · exact ⟨_, _, rfl⟩
                · exact ⟨_, _, rfl⟩

/-- C4 (amended): for every completeTransaction call that passes its
resolution steps, provided the destination account is distinct from the
clearing account, exactly two balance writes occur, in order: first the
clearing account is debited by the amount, then the destination account
resolved from the transaction's to field is credited by the amount. -/
theorem C4_completion_two_writes (tx : Txn) (s : Store) (r : Ref Account)
    (t : Account) (au : User) (ad : Account)
    (hto : tx.«to» = some r)
    (ht : resolveAccount s r = some t)
    (hau : adminUser s = some au)
    (had : s.accounts.find? (fun a => a.owner == au.id) = some ad)
    (hts : (s.accounts.find? (fun a => a.id == t.id)).isSome)
    (hne : t.id ≠ ad.id) :
    isOk (completeTransaction tx s).1 = true ∧
    (completeTransaction tx s).2.2 =
      [Write.balance ad.id (ad.balance - tx.amount),
       Write.balance t.id (t.balance + tx.amount)] ∧
    balanceOf (completeTransaction tx s).2.1 ad.id = some (ad.balance - tx.amount) ∧
    balanceOf (completeTransaction tx s).2.1 t.id = some (t.balance + tx.amount) := by
  rw [complete_ok_eq hto ht hau had hts]
  refine ⟨rfl, rfl, ?_, ?_⟩
  · simp only [balanceOf]
    rw [find?_id_updAccounts_ne _ _ (Ne.symm hne)]
    exact balance_after_self_upd _
      (find?_id_isSome_of_mem (List.mem_of_find?_eq_some had))
  · simp only [balanceOf]
    exact balance_after_self_upd _ (by rw [find?_id_updAccounts_isSome]; exact hts)

/-- A transaction completing into bob's account. -/
def txToB : Txn := { tx0 with «to» := some (Ref.byId "acct-b") }

/-- Witness for C4 on the sample world: clearing 1000 to 900, destination
200 to 300, with exactly those two writes in order. -/
theorem C4_completion_two_writes_witness :
    isOk (completeTransaction txToB s0).1 = true ∧
    (completeTransaction txToB s0).2.2 =
      [Write.balance "acct-admin" 900, Write.balance "acct-b" 300] ∧
    balanceOf (completeTransaction txToB s0).2.1 "acct-admin" = some 900 ∧
    balanceOf (completeTransaction txToB s0).2.1 "acct-b" = some 300 :=
  C4_completion_two_writes txToB s0 (Ref.byId "acct-b") bobAcct adminU adminAcct
    (by decide) (by decide) (by decide) (by decide) (by decide) (by decide)

/-- A transaction whose destination is the clearing account itself. -/
def txToAdmin : Txn := { tx0 with «to» := some (Ref.byId "acct-admin") }

/-- C4 counterexample: when the destination resolved from the transaction's
to field is the clearing account itself, the call passes resolution, but the
clearing account ends at balance_before + amount (the later credit overwrites
the debit), not balance_before - amount as the claim states for every call. -/
theorem C4_claim_counterexample :
    isOk (completeTransaction txToAdmin s0).1 = true ∧
    txToAdmin.amount = 100 ∧
    balanceOf s0 "acct-admin" = some 1000 ∧
    balanceOf (completeTransaction txToAdmin s0).2.1 "acct-admin" = some 1100 ∧
    ¬ (1100 : Int) = 1000 - 100 := by decide

/-- Two sequential initiations of the same transaction object. -/
def initTwice (tx : Txn) (s : Store) : TxResult × Store × List Write :=
  initiateTransaction tx (initiateTransaction tx s).2.1

/-- C8 (amended): initiateTransaction is not idempotent: when the source is
referenced by id, is distinct from the clearing account, and both sequential
calls pass the rejection test, the source ends 2 x amount lower and the
clearing account 2 x amount higher than before the first call. -/
theorem C8_double_initiation_double_debits (tx : Txn) (s : Store) (f : Account)
    (rc au : User) (ad : Account)
    (hfbi : tx.«from» = Ref.byId f.id)
    (hffind : s.accounts.find? (fun a => a.id == f.id) = some f)
    (hrc : resolveUser s tx.receiver = some rc)
    (hacc : receiverAccounts s rc ≠ [])
    (hau : adminUser s = some au)
    (had : s.accounts.find? (fun a => a.owner == au.id) = some ad)
    (hne : f.id ≠ ad.id)
    (hbal1 : ¬ f.balance < tx.amount)
    (hbal2 : ¬ f.balance - tx.amount < tx.amount) :
    isOk (initiateTransaction tx s).1 = true ∧
    isOk (initTwice tx s).1 = true ∧
    balanceOf (initTwice tx s).2.1 f.id = some (f.balance - 2 * tx.amount) ∧
    balanceOf (initTwice tx s).2.1 ad.id = some (ad.balance + 2 * tx.amount) := by
  have hf : resolveAccount s tx.«from» = some f := by rw [hfbi]; exact hffind
  have hfs : (s.accounts.find? (fun a => a.id == f.id)).isSome := by
    rw [hffind]; rfl
  have h1 := initiate_ok_eq hf hrc hbal1 hacc hau had hfs
  -- the store after the first call
  have hfind1 : (updAccounts f.id (f.balance - tx.amount)
      (updAccounts ad.id (ad.balance + tx.amount) s.accounts)).find?
        (fun a => a.id == f.id)
      = some { f with balance := f.balance - tx.amount } := by
    rw [find?_id_updAccounts_self, find?_id_updAccounts_ne _ _ hne, hffind]
    rfl
  have hf2 : resolveAccount
      { s with accounts := updAccounts f.id (f.balance - tx.amount)
                 (updAccounts ad.id (ad.balance + tx.amount) s.accounts) } tx.«from»
      = some { f with balance := f.balance - tx.amount } := by
    rw [hfbi]; exact hfind1
  have hrc2 : resolveUser
      { s with accounts := updAccounts f.id (f.balance - tx.amount)
                 (updAccounts ad.id (ad.balance + tx.amount) s.accounts) } tx.receiver
      = some rc := hrc
  have hacc2 : receiverAccounts
      { s with accounts := updAccounts f.id (f.balance - tx.amount)
                 (updAccounts ad.id (ad.balance + tx.amount) s.accounts) } rc ≠ [] := by
    show (updAccounts f.id (f.balance - tx.amount)
        (updAccounts ad.id (ad.balance + tx.amount) s.accounts)).filter
        (fun a => a.owner == rc.id) ≠ []
    rw [filter_owner_updAccounts, filter_owner_updAccounts]
    simp only [ne_eq, List.map_eq_nil_iff]
    exact hacc
  have hau2 : adminUser
      { s with accounts := updAccounts f.id (f.balance - tx.amount)
                 (updAccounts ad.id (ad.balance + tx.amount) s.accounts) }
      = some au := hau
  have had2 : (updAccounts f.id (f.balance - tx.amount)
      (updAccounts ad.id (ad.balance + tx.amount) s.accounts)).find?
        (fun a => a.owner == au.id)
      = some { ad with balance := ad.balance + tx.amount } := by
    rw [find?_owner_updAccounts, find?_owner_updAccounts, had]
    simp [Ne.symm hne]
  have hfs2 : ((updAccounts f.id (f.balance - tx.amount)
      (updAccounts ad.id (ad.balance + tx.amount) s.accounts)).find?
        (fun a => a.id == f.id)).isSome := by
    rw [hfind1]; rfl
  have h2 := initiate_ok_eq hf2 hrc2 hbal2 hacc2 hau2 had2 hfs2
  have hfinal : initTwice tx s =
      (TxResult.ok (setTo tx rc (receiverAccounts
         { s with accounts := updAccounts f.id (f.balance - tx.amount)
                    (updAccounts ad.id (ad.balance + tx.amount) s.accounts) } rc)),
       { s with accounts :=
                  updAccounts f.id ((f.balance - tx.amount) - tx.amount)
                    (updAccounts ad.id ((ad.balance + tx.amount) + tx.amount)
                      (updAccounts f.id (f.balance - tx.amount)
                        (updAccounts ad.id (ad.balance + tx.amount) s.accounts))) },
       [Write.balance ad.id ((ad.balance + tx.amount) + tx.amount),
        Write.balance f.id ((f.balance - tx.amount) - tx.amount)]) := by
    unfold initTwice
    rw [h1]
    exact h2
  refine ⟨by rw [h1]; rfl, by rw [hfinal]; rfl, ?_, ?_⟩
  · rw [hfinal]
    have harith : (f.balance - tx.amount) - tx.amount = f.balance - 2 * tx.amount := by
      ring
    rw [harith]
    simp only [balanceOf]
    refine balance_after_self_upd _ ?_
    rw [find?_id_updAccounts_isSome, find?_id_updAccounts_isSome,
      find?_id_updAccounts_isSome, hffind]
    rfl
  · rw [hfinal]
    have harith : (ad.balance + tx.amount) + tx.amount = ad.balance + 2 * tx.amount := by
      ring
    rw [harith]
    simp only [balanceOf]
    rw [find?_id_updAccounts_ne _ _ (Ne.symm hne)]
    refine balance_after_self_upd _ ?_
    rw [find?_id_updAccounts_isSome, find?_id_updAccounts_isSome]
    exact find?_id_isSome_of_mem (List.mem_of_find?_eq_some had)

/-- Witness for C8 on the sample world: two initiations of the same
100-unit transfer leave the source at 300 = 500 - 200 and the clearing
account at 1200 = 1000 + 200. -/
theorem C8_double_initiation_double_debits_witness :
    isOk (initiateTransaction tx0 s0).1 = true ∧
    isOk (initTwice tx0 s0).1 = true ∧
    balanceOf (initTwice tx0 s0).2.1 "acct-a" = some 300 ∧
    balanceOf (initTwice tx0 s0).2.1 "acct-admin" = some 1200 := by
  have h := C8_double_initiation_double_debits tx0 s0 aliceAcct bobU adminU adminAcct
    (by decide) (by decide) (by decide) (by decide) (by decide) (by decide)
    (by decide) (by decide) (by decide)
  exact ⟨h.1, h.2.1, h.2.2.1, h.2.2.2⟩

/-- C8 counterexample: when the source account is the clearing account
itself, both calls pass the rejection test and the source does end 2 x
amount lower, but the clearing account (the same record) ends at 800, not
credited by 2 x amount as the claim states. -/
theorem C8_claim_counterexample :
    isOk (initiateTransaction txAdminSrc s0).1 = true ∧
    isOk (initTwice txAdminSrc s0).1 = true ∧
    balanceOf s0 "acct-admin" = some 1000 ∧
    balanceOf (initTwice txAdminSrc s0).2.1 "acct-admin" = some 800 ∧
    ¬ (800 : Int) = 1000 + 2 * 100 := by decide

/-- A successful initiation immediately followed by completion of the same
in-memory transaction, with no interleaved operations. -/
def initThen (tx : Txn) (s : Store) : TxResult × Store × List Write :=
  completeTransaction (okTxn (initiateTransaction tx s).1 tx)
    (initiateTransaction tx s).2.1

/-- C5 (amended): when an initiation succeeds and completion follows with no
interleaving, and the source, destination and clearing accounts are pairwise
distinct, the source ends amount lower, the destination amount higher, and
the clearing account returns to its pre-transfer balance. -/
theorem C5_conservation (tx : Txn) (s : Store) (f : Account) (rc au : User)
    (ad : Account) (dr : Ref Account) (d : Account)
    (hf : resolveAccount s tx.«from» = some f)
    (hfs : (s.accounts.find? (fun a => a.id == f.id)).isSome)
    (hrc : resolveUser s tx.receiver = some rc)
    (hbal : ¬ f.balance < tx.amount)
    (hacc : receiverAccounts s rc ≠ [])
    (hau : adminUser s = some au)
    (had : s.accounts.find? (fun a => a.owner == au.id) = some ad)
    (hd : chosenDest rc (receiverAccounts s rc) = some dr)
    (hdr : resolveAccount s dr = some d)
    (hds : s.accounts.find? (fun a => a.id == d.id) = some d)
    (hfa : f.id ≠ ad.id)
    (hdf : d.id ≠ f.id)
    (hda : d.id ≠ ad.id) :
    isOk (initiateTransaction tx s).1 = true ∧
    isOk (initThen tx s).1 = true ∧
    balanceOf (initThen tx s).2.1 f.id = some (f.balance - tx.amount) ∧
    balanceOf (initThen tx s).2.1 d.id = some (d.balance + tx.amount) ∧
    balanceOf (initThen tx s).2.1 ad.id = some ad.balance := by
  have h1 := initiate_ok_eq hf hrc hbal hacc hau had hfs
  have hto1 : (setTo tx rc (receiverAccounts s rc)).«to» = some dr := hd
  have ht1 : resolveAccount
      { s with accounts := updAccounts f.id (f.balance - tx.amount)
                 (updAccounts ad.id (ad.balance + tx.amount) s.accounts) } dr
      = some d := by
    cases dr with
    | byId i =>
      have hdr' : s.accounts.find? (fun a => a.id == i) = some d := hdr
      have hii : d.id = i := by simpa using List.find?_some hdr'
      show (updAccounts f.id (f.balance - tx.amount)
          (updAccounts ad.id (ad.balance + tx.amount) s.accounts)).find?
          (fun a => a.id == i) = some d
      rw [← hii] at hdr' ⊢
      rw [find?_id_updAccounts_ne _ _ hdf, find?_id_updAccounts_ne _ _ hda]
      exact hdr'
    | record a0 =>
      have ha0 : a0 = d := by simpa [resolveAccount, getInstance] using hdr
      show some a0 = some d
      rw [ha0]
  have hau1 : adminUser
      { s with accounts := updAccounts f.id (f.balance - tx.amount)
                 (updAccounts ad.id (ad.balance + tx.amount) s.accounts) }
      = some au := hau
  have had1 : (updAccounts f.id (f.balance - tx.amount)
      (updAccounts ad.id (ad.balance + tx.amount) s.accounts)).find?
        (fun a => a.owner == au.id)
      = some { ad with balance := ad.balance + tx.amount } := by
    rw [find?_owner_updAccounts, find?_owner_updAccounts, had]
    simp [Ne.symm hfa]
  have hts1 : ((updAccounts f.id (f.balance - tx.amount)
      (updAccounts ad.id (ad.balance + tx.amount) s.accounts)).find?
        (fun a => a.id == d.id)).isSome := by
    rw [find?_id_updAccounts_isSome, find?_id_updAccounts_isSome, hds]
    rfl
  have h2 := complete_ok_eq hto1 ht1 hau1 had1 hts1
  have hfinal : initThen tx s =
      (TxResult.ok (setTo tx rc (receiverAccounts s rc)),
       { s with accounts :=
                  updAccounts d.id (d.balance + tx.amount)
                    (updAccounts ad.id ((ad.balance + tx.amount) - tx.amount)
                      (updAccounts f.id (f.balance - tx.amount)
                        (updAccounts ad.id (ad.balance + tx.amount) s.accounts))) },
       [Write.balance ad.id ((ad.balance + tx.amount) - tx.amount),
        Write.balance d.id (d.balance + tx.amount)]) := by
    unfold initThen
    rw [h1]
    exact h2
  refine ⟨by rw [h1]; rfl, by rw [hfinal]; rfl, ?_, ?_, ?_⟩
  · rw [hfinal]
    simp only [balanceOf]
    rw [find?_id_updAccounts_ne _ _ (Ne.symm hdf),
      find?_id_updAccounts_ne _ _ hfa]
    exact balance_after_self_upd _ (by rw [find?_id_updAccounts_isSome]; exact hfs)
  · rw [hfinal]
    simp only [balanceOf]
    refine balance_after_self_upd _ ?_
    rw [find?_id_updAccounts_isSome, find?_id_updAccounts_isSome,
      find?_id_updAccounts_isSome, hds]
    rfl
  · rw [hfinal]
    have harith : (ad.balance + tx.amount) - tx.amount = ad.balance := by ring
    rw [harith]
    simp only [balanceOf]
    rw [find?_id_updAccounts_ne _ _ (Ne.symm hda)]
    refine balance_after_self_upd _ ?_
    rw [find?_id_updAccounts_isSome, find?_id_updAccounts_isSome]
    exact find?_id_isSome_of_mem (List.mem_of_find?_eq_some had)

/-- Witness for C5 on the sample world: source 500 to 400, destination 200
to 300, clearing back at 1000. -/
theorem C5_conservation_witness :
    isOk (initiateTransaction tx0 s0).1 = true ∧
    isOk (initThen tx0 s0).1 = true ∧
    balanceOf (initThen tx0 s0).2.1 "acct-a" = some 400 ∧
    balanceOf (initThen tx0 s0).2.1 "acct-b" = some 300 ∧
    balanceOf (initThen tx0 s0).2.1 "acct-admin" = some 1000 := by
  have h := C5_conservation tx0 s0 aliceAcct bobU adminU adminAcct
    (Ref.byId "acct-b") bobAcct (by decide) (by decide) (by decide) (by decide)
    (by decide) (by decide) (by decide) (by decide) (by decide) (by decide)
    (by decide) (by decide) (by decide)
  exact ⟨h.1, h.2.1, h.2.2.1, h.2.2.2.1, h.2.2.2.2⟩

/-- A transfer whose receiver is the clearing (admin) user, so the chosen
destination account is the clearing account itself. -/
def tx5 : Txn := { tx0 with receiver := Ref.byId "u-admin" }

/-- C5 counterexample: when the destination account is the clearing account,
both stages succeed, but the clearing balance ends at 1100 rather than
returning to its pre-transfer value 1000 (and rather than gaining the
100-unit amount as the destination is claimed to). -/
theorem C5_claim_counterexample :
    isOk (initiateTransaction tx5 s0).1 = true ∧
    isOk (initThen tx5 s0).1 = true ∧
    balanceOf s0 "acct-admin" = some 1000 ∧
    balanceOf (initThen tx5 s0).2.1 "acct-admin" = some 1100 ∧
    ¬ (1100 : Int) = 1000 := by decide

end Glix
